import Mathlib

/-!
Shallow embedding of the CDM browser-extension background engine
(`src/background.ts`, `utils/app-settings.ts`, `utils/utilities.ts`,
`utils/http-client.ts`) and proofs about its decision-and-dispatch logic.

JavaScript string primitives (`substring`, `lastIndexOf`, `indexOf`,
`toLowerCase`, `trim`, `includes`, `startsWith`, `split("/")[1]`) are
modelled on `List Char` with JS clamping semantics.  JS `Set` objects are
modelled as duplicate-free `List`s with insertion-order `add`.
-/

-- ===========================================================================
-- JS string primitives
-- ===========================================================================

/-- JS `String.prototype.lastIndexOf` for a single-character needle:
the index of the last occurrence, or `-1` when absent. -/
def jsLastIndexOfAux (l : List Char) (c : Char) : Int :=
  match l with
  | [] => -1
  | a :: rest =>
    let r := jsLastIndexOfAux rest c
    if 0 ≤ r then r + 1 else if a = c then 0 else -1

/-- JS `s.lastIndexOf(c)` on a string. -/
def jsLastIndexOfChar (s : String) (c : Char) : Int :=
  jsLastIndexOfAux s.data c

/-- JS `String.prototype.indexOf` for a single-character needle. -/
def jsIndexOfAux (l : List Char) (c : Char) : Int :=
  match l with
  | [] => -1
  | a :: rest =>
    if a = c then 0
    else
      let r := jsIndexOfAux rest c
      if 0 ≤ r then r + 1 else -1

/-- JS `s.indexOf(c)` on a string. -/
def jsIndexOfChar (s : String) (c : Char) : Int :=
  jsIndexOfAux s.data c

/-- JS `s.substring(start)`: a negative start index is clamped to `0`
(so `s.substring(-1)` is the whole string), an index past the end gives `""`. -/
def jsSubstringFrom (s : String) (start : Int) : String :=
  ⟨s.data.drop start.toNat⟩

/-- JS `s.substring(start, stop)`: both indices are clamped into
`[0, s.length]` and swapped when `start > stop`. -/
def jsSubstring (s : String) (start stop : Int) : String :=
  let a := min start.toNat s.data.length
  let b := min stop.toNat s.data.length
  ⟨(s.data.take (max a b)).drop (min a b)⟩

/-- JS `s.toLowerCase()` (ASCII case folding, which is all the source uses). -/
def jsToLower (s : String) : String :=
  ⟨s.data.map Char.toLower⟩

/-- JS `s.trim()`: strip whitespace from both ends. -/
def jsTrim (s : String) : String :=
  ⟨((s.data.dropWhile Char.isWhitespace).reverse.dropWhile Char.isWhitespace).reverse⟩

/-- JS `s.includes(c)` for a single-character needle. -/
def jsIncludesChar (s : String) (c : Char) : Bool :=
  s.data.contains c

/-- JS `s.startsWith(p)`. -/
def jsStartsWith (s p : String) : Bool :=
  s.data.take p.data.length == p.data

/-- JS `mime.split("/")[1]`: the segment between the first slash and the
following slash (or the end).  In the source this is only evaluated after
`mime.includes("/")` has been checked. -/
def mimeSubtype (mime : String) : String :=
  ⟨((mime.data.dropWhile (fun c => c ≠ '/')).drop 1).takeWhile (fun c => c ≠ '/')⟩

/-- JS `Set.prototype.add` on a duplicate-free insertion-ordered list. -/
def listInsert {α : Type} [DecidableEq α] (a : α) (l : List α) : List α :=
  if l.contains a then l else l ++ [a]

-- ===========================================================================
-- Settings model (`utils/app-settings.ts`)
-- ===========================================================================

/-- A value stored in the settings object: the three keys of
`ExtensionSettings` hold a boolean, a string array and a number. -/
inductive SettingsValue where
  | b (v : Bool)
  | strs (v : List String)
  | n (v : Nat)
deriving DecidableEq, Repr

/-- State of the `AppSettings` singleton: the in-memory `_settings` object,
the copy persisted in `chrome.storage.local`, and `lastFetchTime`.
Settings objects are modelled as association lists over their keys. -/
structure AppSettingsState where
  settings : List (String × SettingsValue)
  storage : List (String × SettingsValue)
  lastFetchTime : Nat
deriving DecidableEq, Repr

/-- Key lookup in a settings object (JS property access /
`Object.keys` + `Object.values` indexing, as `AppSettings.get` does it). -/
def settingsLookup (l : List (String × SettingsValue)) (key : String) :
    Option SettingsValue :=
  match l with
  | [] => none
  | p :: rest => if p.1 = key then some p.2 else settingsLookup rest key

/-- The default settings object built in the `AppSettings` constructor. -/
def defaultSettingsObj : List (String × SettingsValue) :=
  [("enabled", .b true), ("supportedFileTypes", .strs []), ("lastCheckForUpdates", .n 0)]

namespace AppSettings

/-- `AppSettings.get(key, defaultValue)`: the stored value when the key
exists, the default otherwise. -/
def get (st : AppSettingsState) (key : String) (defaultValue : SettingsValue) :
    SettingsValue :=
  (settingsLookup st.settings key).getD defaultValue

/-- `AppSettings.isEnabled()`: `get<boolean>("enabled", true)`. -/
def isEnabled (st : AppSettingsState) : Bool :=
  match get st "enabled" (.b true) with
  | .b v => v
  | _ => true

/-- `AppSettings.isContainingFileType(fileType)`:
`get<string[]>("supportedFileTypes", []).includes(fileType)`. -/
def isContainingFileType (st : AppSettingsState) (fileType : String) : Bool :=
  (match get st "supportedFileTypes" (.strs []) with
   | .strs l => l
   | _ => []).contains fileType

/-- `AppSettings.set(key, value)` (lines 179-194 of `app-settings.ts`).
The source checks the key exists, compares with the current value, then
assigns `this._settings` IN MEMORY and only afterwards awaits
`_saveToStorage()`.  `saveOk` is whether `chrome.storage.local.set`
succeeds; the returned flag is whether the call threw (a failed save
rethrows out of `set`, after the in-memory assignment already happened).
JS `!==` on an array is reference inequality; we use structural
inequality, which coincides for the primitive values the claims touch. -/
def set (st : AppSettingsState) (key : String) (value : SettingsValue)
    (saveOk : Bool) : AppSettingsState × Bool :=
  match settingsLookup st.settings key with
  | none => (st, false)
  | some currentValue =>
    if currentValue = value then (st, false)
    else
      let newSettings := st.settings.map (fun p => if p.1 = key then (p.1, value) else p)
      if saveOk then
        ({ st with settings := newSettings, storage := newSettings }, false)
      else
        ({ st with settings := newSettings }, true)

end AppSettings

/-- Outcome of the `GET /cdm/download/filetypes/` call made by
`updateSupportedFileTypes`: a response with `isSuccessful = true` and a
catalog, a response with `isSuccessful = false`, or a thrown transport
error (connection refused / timeout). -/
inductive FetchResult where
  | success (data : List String)
  | failure (message : String)
  | error
deriving DecidableEq, Repr

/-- `AppSettings.updateSupportedFileTypes()` (lines 111-140).
`now` is `Date.now()`; the fetch is skipped when less than five minutes
(300000 ms) have passed since `lastFetchTime`.  The returned flag is
whether a network fetch was performed.  Note the source updates
`lastFetchTime` before fetching, whether or not the fetch succeeds, and
its `catch` absorbs both a thrown fetch and a rethrow from `set`. -/
def AppSettings.updateSupportedFileTypes (st : AppSettingsState) (now : Nat)
    (fetch : FetchResult) (saveOk : Bool) : AppSettingsState × Bool :=
  if now - st.lastFetchTime < 5 * 60 * 1000 then (st, false)
  else
    let st1 : AppSettingsState := { st with lastFetchTime := now }
    match fetch with
    | .success data => ((AppSettings.set st1 "supportedFileTypes" (.strs data) saveOk).1, true)
    | .failure _ => (st1, true)
    | .error => (st1, true)

/-- The in-memory supported-type catalog of a settings state. -/
def supportedTypesOf (st : AppSettingsState) : List String :=
  match settingsLookup st.settings "supportedFileTypes" with
  | some (.strs l) => l
  | _ => []

-- ===========================================================================
-- Background script data model (`src/background.ts`)
-- ===========================================================================

/-- A `chrome.downloads.DownloadItem` as consumed by the background script.
`finalUrl`, `referrer` and `initiator` can be absent (`undefined`) on some
hosts, which the source guards with `??` / truthiness checks. -/
structure DownloadItem where
  id : Nat
  url : String
  finalUrl : Option String
  filename : String
  mime : String
  referrer : Option String
  initiator : Option String
deriving DecidableEq, Repr

/-- `DownloadData` (`models/download-data.ts`): the redirect-request payload
POSTed to the desktop application. -/
structure DownloadData where
  url : String
  referer : Option String
  pageAddress : Option String
  description : Option String
  isBrowserNative : Bool
deriving DecidableEq, Repr

/-- Browser-side and transport-side calls the background script performs. -/
inductive Effect where
  | cancel (id : Nat)
  | erase (id : Nat)
  | suggestCall (filename : String)
  | dispatchCall (data : List DownloadData)
  | openTab (url : String)
deriving DecidableEq, Repr

/-- Outcome of the `POST /cdm/download/add/` made by `downloadFile`:
`success` - 2xx with `isSuccessful = true`;
`rejected` - 2xx with `isSuccessful = false` (app reachable, declined);
`error` - `HttpClient` threw (connection refused / timeout surfaces as a
network error, a non-2xx status as an HTTP error - both are thrown, per
`_handleError` in `utils/http-client.ts`). -/
inductive DispatchResult where
  | success (message : Option String)
  | rejected (message : Option String)
  | error
deriving DecidableEq, Repr

/-- Shared module-level state of the background script: the
`capturedDownloads : Set<number>` and `ignoredDownloads : Set<string>`
singletons (lines 19-22) plus the `appSettings` singleton. -/
structure BgState where
  capturedDownloads : List Nat
  ignoredDownloads : List String
  appSettings : AppSettingsState
deriving DecidableEq, Repr

/-- `utils.isUnsupportedProtocol` (`utils/utilities.ts`). -/
def unsupportedProtocols : List String :=
  ["blob:", "data:", "mailto:", "tel:", "sms:", "file:", "ftp:",
   "chrome:", "edge:", "about:", "javascript:"]

/-- `isUnsupportedProtocol(url)`: whether the URL starts with a scheme the
extension cannot proxy. -/
def isUnsupportedProtocol (url : String) : Bool :=
  unsupportedProtocols.any (fun protocol => jsStartsWith url protocol)

/-- `extractFileExtensionFromUrl(url)` (lines 656-671 of `background.ts`).
The caller may pass `undefined` (`downloadItem.finalUrl` on Firefox);
`!url` is true for both `undefined` and `""`, so callers pass `""` for an
absent URL here. -/
def extractFileExtensionFromUrl (url : String) : String :=
  if url = "" then ""
  else
    let lastSlashIndex := jsLastIndexOfChar url '/'
    let fileName := jsSubstringFrom url (lastSlashIndex + 1)
    if jsIncludesChar fileName '?' then
      jsTrim (jsToLower
        (jsSubstring fileName (jsLastIndexOfChar fileName '.') (jsIndexOfChar fileName '?')))
    else
      jsTrim (jsToLower (jsSubstringFrom fileName (jsLastIndexOfChar fileName '.')))

/-- The filename branch of `getFileExtension` (line 628):
`fileName.substring(fileName.lastIndexOf(".")).toLowerCase().trim()`.
When the filename has no dot, `lastIndexOf` is `-1` and JS `substring`
clamps it to `0`, yielding the whole filename. -/
def filenameExtCandidate (fileName : String) : String :=
  jsTrim (jsToLower (jsSubstringFrom fileName (jsLastIndexOfChar fileName '.')))

/-- `getFileExtension(downloadItem)` (lines 621-649 of `background.ts`).
When the filename is non-empty its suffix is the candidate and the URL
signals are never consulted (the `else` branch); only when the filename is
empty are final URL then original URL tried; a candidate that is empty or
unsupported finally falls back to the MIME subtype, which is NOT itself
checked against the supported set. -/
def getFileExtension (s : AppSettingsState) (item : DownloadItem) : String :=
  let fileName := item.filename
  let extension :=
    if fileName ≠ "" then
      filenameExtCandidate fileName
    else
      let e := extractFileExtensionFromUrl (item.finalUrl.getD "")
      if e = "" ∨ AppSettings.isContainingFileType s e = false then
        extractFileExtensionFromUrl item.url
      else e
  if extension = "" ∨ AppSettings.isContainingFileType s extension = false then
    if item.mime ≠ "" ∧ jsIncludesChar item.mime '/' then
      "." ++ jsToLower (mimeSubtype item.mime)
    else extension
  else extension

/-- `getDownloadData(downloadItem)` (lines 274-291): the redirect payload
for a browser-native download.  `activeTabUrl` is what `getActiveTab()`
resolved to. -/
def getDownloadData (item : DownloadItem) (activeTabUrl : Option String) :
    DownloadData :=
  { url := item.finalUrl.getD item.url
    referer := match item.referrer with
               | some r => some r
               | none => item.initiator
    pageAddress := activeTabUrl
    description := none
    isBrowserNative := true }

/-- `ignoreDownloadsAndStartInBrowser(downloadItems)` (lines 836-853):
for each browser-native item, add its URL to `ignoredDownloads` and open
it in a new tab. -/
def ignoreDownloadsAndStartInBrowser (st : BgState) (items : List DownloadData) :
    BgState × List Effect :=
  let nativeBrowserDownloads := items.filter (fun item => item.isBrowserNative)
  nativeBrowserDownloads.foldl
    (fun acc item =>
      ({ acc.1 with ignoredDownloads := listInsert item.url acc.1.ignoredDownloads },
       acc.2 ++ [Effect.openTab item.url]))
    (st, [])

/-- `downloadFile(data)` (lines 297-321): POST the redirect request; on a
response with `isSuccessful = false` fall back via
`ignoreDownloadsAndStartInBrowser`; a THROWN transport error (connection
refused / timeout / non-2xx) is caught and only logged - no fallback. -/
def downloadFile (st : BgState) (data : List DownloadData) (resp : DispatchResult) :
    BgState × List Effect :=
  match resp with
  | .success _ => (st, [Effect.dispatchCall data])
  | .rejected _ =>
      let fallback := ignoreDownloadsAndStartInBrowser st data
      (fallback.1, Effect.dispatchCall data :: fallback.2)
  | .error => (st, [Effect.dispatchCall data])

/-- The ignore-set membership test of `handleDownload` (line 198):
`ignoredDownloads.has(downloadItem.finalUrl) || ignoredDownloads.has(downloadItem.url)`
(`has(undefined)` is `false`). -/
def isIgnoredItem (st : BgState) (item : DownloadItem) : Bool :=
  (match item.finalUrl with
   | some u => st.ignoredDownloads.contains u
   | none => false) || st.ignoredDownloads.contains item.url

/-- `handleDownload(downloadItem, suggest)` (lines 187-267), run atomically
to completion.  `suggest` is whether the `onDeterminingFilename` suggest
callback was passed; `activeTabUrl` feeds `getDownloadData`; `resp` is the
dispatch outcome.  The `finally` block additionally schedules
`capturedCleanup` for `item.id` 3000 ms later; that delayed timer callback
is modelled as the separate function `capturedCleanup` below. -/
def handleDownload (st : BgState) (item : DownloadItem) (suggest : Bool)
    (activeTabUrl : Option String) (resp : DispatchResult) : BgState × List Effect :=
  if !(AppSettings.isEnabled st.appSettings) then (st, [])
  else
    let downloadItemUrl := item.finalUrl.getD item.url
    if isIgnoredItem st item then (st, [])
    else if isUnsupportedProtocol downloadItemUrl then (st, [])
    else
      let fileExtension := getFileExtension st.appSettings item
      if !(AppSettings.isContainingFileType st.appSettings fileExtension) then (st, [])
      else if suggest then
        ({ st with capturedDownloads := listInsert item.id st.capturedDownloads },
         [Effect.suggestCall item.filename, Effect.cancel item.id, Effect.erase item.id])
      else
        let pre :=
          if !(st.capturedDownloads.contains item.id) then
            ({ st with capturedDownloads := listInsert item.id st.capturedDownloads },
             [Effect.cancel item.id, Effect.erase item.id])
          else (st, ([] : List Effect))
        let data := getDownloadData item activeTabUrl
        let result := downloadFile pre.1 [data] resp
        (result.1, pre.2 ++ result.2)

/-- The delayed cleanup scheduled by `handleDownload`'s `finally` block
(lines 257-265): 3000 ms later, delete `item.id` from `capturedDownloads`
if it is still there. -/
def capturedCleanup (st : BgState) (id : Nat) : BgState :=
  { st with capturedDownloads := st.capturedDownloads.filter (fun x => x ≠ id) }

-- ===========================================================================
-- Message router (`handleMessages`, lines 360-399)
-- ===========================================================================

/-- An incoming `chrome.runtime` message: `message?.type` and
`message.url`, either possibly absent. -/
structure RuntimeMessage where
  type : Option String
  url : Option String
deriving DecidableEq, Repr

/-- The sender information used by `handleMessages`:
`sender.tab?.url ?? sender.url ?? null`. -/
structure MessageSender where
  tabUrl : Option String
  url : Option String
deriving DecidableEq, Repr

/-- The structured `{isSuccessful, message}` acknowledgment sent through
`sendResponse`. -/
structure MsgResponse where
  isSuccessful : Bool
  message : String
deriving DecidableEq, Repr

/-- `handleMessages(message, sender, sendResponse)`: returns the
synchronous acknowledgment plus the `DownloadData` payload (if any) that
is subsequently handed to `downloadFile`.  JS `!message.url` is true for
both an absent and an empty `url`. -/
def handleMessages (msg : RuntimeMessage) (sender : MessageSender) :
    MsgResponse × Option DownloadData :=
  match msg.type with
  | some t =>
    if t = "download_media" then
      match msg.url with
      | none => ({ isSuccessful := false, message := "Url is not provided" }, none)
      | some u =>
        if u = "" then ({ isSuccessful := false, message := "Url is not provided" }, none)
        else
          let tabUrl := match sender.tabUrl with
                        | some tu => some tu
                        | none => sender.url
          ({ isSuccessful := true, message := "Message received" },
           some { url := u, referer := tabUrl, pageAddress := tabUrl,
                  description := none, isBrowserNative := false })
    else ({ isSuccessful := false, message := "Invalid message type" }, none)
  | none => ({ isSuccessful := false, message := "Invalid message type" }, none)

-- ===========================================================================
-- Whole-process event step (for lifetime invariants)
-- ===========================================================================

/-- One event delivered to the background script during the life of the
host process, with the environment inputs each handler consumes. -/
inductive BgEvent where
  /-- `chrome.downloads.onCreated` (after the 100/500 ms delay). -/
  | downloadCreated (item : DownloadItem) (activeTabUrl : Option String) (resp : DispatchResult)
  /-- `chrome.downloads.onDeterminingFilename` (Chromium only). -/
  | determiningFilename (item : DownloadItem) (activeTabUrl : Option String) (resp : DispatchResult)
  /-- `chrome.runtime.onMessage`. -/
  | message (msg : RuntimeMessage) (sender : MessageSender) (resp : DispatchResult)
  /-- A context-menu click: the link / media URLs collected from the page,
  dispatched with `isBrowserNative = false`. -/
  | contextMenu (urls : List String) (tabUrl : Option String) (resp : DispatchResult)
  /-- The delayed `capturedDownloads` cleanup from `handleDownload`'s
  `finally` block. -/
  | capturedExpiry (id : Nat)
  /-- `chrome.action.onClicked`: toggle the enabled flag. -/
  | actionClicked (saveOk : Bool)
  /-- `chrome.tabs.onCreated`: refresh the supported-type catalog. -/
  | tabCreated (now : Nat) (fetch : FetchResult) (saveOk : Bool)

/-- The redirect payloads a context-menu click builds
(`handleSingleItemContextMenuClick` / `handleMultipleItemsContextMenuClick`):
always `isBrowserNative = false`. -/
def contextMenuData (urls : List String) (tabUrl : Option String) : List DownloadData :=
  urls.map (fun link =>
    { url := link, referer := tabUrl, pageAddress := tabUrl,
      description := none, isBrowserNative := false })

/-- One step of the background script's event loop. -/
def stepBg (st : BgState) (ev : BgEvent) : BgState × List Effect :=
  match ev with
  | .downloadCreated item tab resp => handleDownload st item false tab resp
  | .determiningFilename item tab resp => handleDownload st item true tab resp
  | .message msg sender resp =>
    match (handleMessages msg sender).2 with
    | some data => downloadFile st [data] resp
    | none => (st, [])
  | .contextMenu urls tabUrl resp =>
    match urls with
    | [] => (st, [])
    | _ => downloadFile st (contextMenuData urls tabUrl) resp
  | .capturedExpiry id => (capturedCleanup st id, [])
  | .actionClicked saveOk =>
    ({ st with appSettings :=
        (AppSettings.set st.appSettings "enabled"
          (.b (!(AppSettings.isEnabled st.appSettings))) saveOk).1 }, [])
  | .tabCreated now fetch saveOk =>
    ({ st with appSettings :=
        (AppSettings.updateSupportedFileTypes st.appSettings now fetch saveOk).1 }, [])

-- ===========================================================================
-- Effect counters
-- ===========================================================================

/-- Number of `chrome.downloads.cancel` calls in an effect trace. -/
def countCancels (effs : List Effect) : Nat :=
  (effs.filter (fun e => match e with | .cancel _ => true | _ => false)).length

/-- Number of `chrome.downloads.erase` calls in an effect trace. -/
def countErases (effs : List Effect) : Nat :=
  (effs.filter (fun e => match e with | .erase _ => true | _ => false)).length

/-- Number of dispatch POSTs in an effect trace. -/
def countDispatchCalls (effs : List Effect) : Nat :=
  (effs.filter (fun e => match e with | .dispatchCall _ => true | _ => false)).length

/-- The URLs opened in new tabs, in order. -/
def openTabUrls (effs : List Effect) : List String :=
  effs.filterMap (fun e => match e with | .openTab u => some u | _ => none)

-- ===========================================================================
-- Micro-step model of the capture guard (lines 239-247 of `background.ts`)
-- ===========================================================================

/-- Progress of one `handleDownload` turn through the capture block

```
if (!capturedDownloads.has(downloadItem.id)) {
  await chrome.downloads.cancel(downloadItem.id);
  await chrome.downloads.erase({ id: downloadItem.id });
  checkLastError();
  capturedDownloads.add(downloadItem.id);
}
```

`await expr` first evaluates `expr` (the browser call happens) and then
suspends, so the membership check and the `cancel` call are one atomic
step, the resumption that issues `erase` is a second, and the resumption
that runs `add` is a third. -/
inductive CapPhase where
  /-- about to run the membership check -/
  | ready
  /-- check passed and `cancel` was issued, suspended at the first `await` -/
  | sentCancel
  /-- `erase` was issued, suspended at the second `await` -/
  | sentErase
  /-- block finished (either skipped or after the `add`) -/
  | finished
deriving DecidableEq, Repr

/-- Run one scheduler turn of a single capture-block coroutine against the
shared `capturedDownloads` set, returning the new set, the next phase and
the browser calls issued. -/
def capStep (captured : List Nat) (id : Nat) (ph : CapPhase) :
    List Nat × CapPhase × List Effect :=
  match ph with
  | .ready =>
    if captured.contains id then (captured, .finished, [])
    else (captured, .sentCancel, [Effect.cancel id])
  | .sentCancel => (captured, .sentErase, [Effect.erase id])
  | .sentErase => (listInsert id captured, .finished, [])
  | .finished => (captured, .finished, [])

/-- Shared state of two notification handlers for the same download id
interleaved by the event loop. -/
structure CapSysState where
  captured : List Nat
  phase1 : CapPhase
  phase2 : CapPhase
deriving DecidableEq, Repr

/-- Run a scheduler: `false` steps handler 1, `true` steps handler 2.
Returns the final state and the concatenated browser-call trace. -/
def capRun (id : Nat) (schedule : List Bool) (st : CapSysState) :
    CapSysState × List Effect :=
  match schedule with
  | [] => (st, [])
  | pick :: rest =>
    let turn :=
      if pick then
        let r := capStep st.captured id st.phase2
        ({ st with captured := r.1, phase2 := r.2.1 }, r.2.2)
      else
        let r := capStep st.captured id st.phase1
        ({ st with captured := r.1, phase1 := r.2.1 }, r.2.2)
    let next := capRun id rest turn.1
    (next.1, turn.2 ++ next.2)

/-- The initial state of two pending notifications for the same id over a
given `capturedDownloads` set. -/
def capInit (captured : List Nat) : CapSysState :=
  { captured := captured, phase1 := .ready, phase2 := .ready }

/-- The schedule that runs handler 1 to completion and only then handler 2
(no interleaving at the `await` points). -/
def seqSchedule : List Bool := [false, false, false, true, true, true]

/-- A schedule where handler 2's membership check runs while handler 1 is
suspended at its first `await`. -/
def interleavedSchedule : List Bool := [false, true, false, false, true, true]

-- ===========================================================================
-- Resolver as the spec orders it (for comparison with `getFileExtension`)
-- ===========================================================================

/-- Modelled from the spec (claim C3's wording): the suffix of a name from
its last `.`, lower-cased; "a ... filename with no `.` yields an empty
extension for that step". -/
def specSuffixFromLastDot (s : String) : String :=
  if jsIncludesChar s '.' then jsTrim (jsToLower (jsSubstringFrom s (jsLastIndexOfChar s '.')))
  else ""

/-- Modelled from the spec: "suffix of the ... URL's path segment,
ignoring any query string, lower-cased". -/
def specUrlCandidate (url : String) : String :=
  let withoutQuery :=
    if jsIncludesChar url '?' then jsSubstring url 0 (jsIndexOfChar url '?') else url
  specSuffixFromLastDot (jsSubstringFrom withoutQuery (jsLastIndexOfChar withoutQuery '/' + 1))

/-- Modelled from the spec: "subtype of the declared MIME type
(`type/subtype` -> `.subtype`), lower-cased". -/
def specMimeCandidate (mime : String) : String :=
  if jsIncludesChar mime '/' then "." ++ jsToLower (mimeSubtype mime) else ""

/-- Modelled from the spec (claim C3): the first candidate in the order
filename suffix, final-URL path suffix, original-URL path suffix, MIME
subtype that is non-empty and in the supported set, falling to the next
signal whenever the current one yields nothing or is unsupported. -/
def specResolveOrdered (supported : List String)
    (fileName finalUrl url mime : String) : String :=
  let cands := [specSuffixFromLastDot fileName, specUrlCandidate finalUrl,
                specUrlCandidate url, specMimeCandidate mime]
  match cands.find? (fun c => !(c = "") && supported.contains c) with
  | some c => c
  | none => ""

/-- The acceptance test applied to an extension candidate at each stage of
`getFileExtension`: non-empty and in the supported-type set. -/
def extCandidateOk (s : AppSettingsState) (c : String) : Prop :=
  c ≠ "" ∧ AppSettings.isContainingFileType s c = true

instance extCandidateOkDecidable (s : AppSettingsState) (c : String) :
    Decidable (extCandidateOk s c) :=
  inferInstanceAs (Decidable (c ≠ "" ∧ AppSettings.isContainingFileType s c = true))

-- ===========================================================================
-- Concrete sample states for witnesses and counterexamples
-- ===========================================================================

/-- A settings state with the extension enabled and `.mp4` supported. -/
def sampleSettings : AppSettingsState :=
  { settings := [("enabled", .b true), ("supportedFileTypes", .strs [".mp4"]),
                 ("lastCheckForUpdates", .n 0)],
    storage := [("enabled", .b true), ("supportedFileTypes", .strs [".mp4"]),
                ("lastCheckForUpdates", .n 0)],
    lastFetchTime := 0 }

/-- A fresh background-script state over `sampleSettings`. -/
def sampleBg : BgState :=
  { capturedDownloads := [], ignoredDownloads := [], appSettings := sampleSettings }

/-- A supported browser-native download item. -/
def sampleItem : DownloadItem :=
  { id := 7, url := "https://example.com/video.mp4",
    finalUrl := some "https://example.com/video.mp4",
    filename := "video.mp4", mime := "video/mp4", referrer := none, initiator := none }

/-- A download whose filename suffix is unsupported while its URL suffix is
supported. -/
def itemXyz : DownloadItem :=
  { id := 2, url := "https://x/a.mp4", finalUrl := some "https://x/a.mp4",
    filename := "file.xyz", mime := "", referrer := none, initiator := none }

/-- A background-script state with the extension disabled. -/
def disabledBg : BgState :=
  { capturedDownloads := [], ignoredDownloads := [],
    appSettings :=
      { settings := [("enabled", .b false), ("supportedFileTypes", .strs [".mp4"]),
                     ("lastCheckForUpdates", .n 0)],
        storage := [("enabled", .b false), ("supportedFileTypes", .strs [".mp4"]),
                    ("lastCheckForUpdates", .n 0)],
        lastFetchTime := 0 } }

/-- A state in which one URL is already in the ignore set. -/
def ignoredBg : BgState :=
  { capturedDownloads := [], ignoredDownloads := ["https://a/x.mp4"],
    appSettings := sampleSettings }

/-- A download item whose `url` is the ignored URL of `ignoredBg`. -/
def itemIgn : DownloadItem :=
  { id := 3, url := "https://a/x.mp4", finalUrl := none,
    filename := "", mime := "", referrer := none, initiator := none }

/-- A message sender with no tab information. -/
def sampleSender : MessageSender := { tabUrl := none, url := none }

-- ===========================================================================
-- Helper lemmas
-- ===========================================================================

theorem contains_listInsert_self {α : Type} [DecidableEq α] (a : α) (l : List α) :
    (listInsert a l).contains a = true := by
  unfold listInsert
  split
  · assumption
  · simp [List.elem_eq_mem]

theorem contains_listInsert_of_contains {α : Type} [DecidableEq α] (a u : α) (l : List α)
    (h : l.contains u = true) : (listInsert a l).contains u = true := by
  unfold listInsert
  split
  · exact h
  · simp only [List.elem_eq_mem, decide_eq_true_eq, List.mem_append] at h ⊢
    exact Or.inl h

theorem filter_ne_of_not_contains (l : List Nat) (id : Nat)
    (h : l.contains id = false) : l.filter (fun x => x ≠ id) = l := by
  rw [List.filter_eq_self]
  intro a ha
  simp only [List.elem_eq_mem, decide_eq_false_iff_not] at h
  simp only [ne_eq, decide_eq_true_eq]
  intro hc
  exact h (hc ▸ ha)

theorem ignoreStart_fold_mono (l : List DownloadData) (u : String) :
    ∀ (acc : BgState × List Effect), acc.1.ignoredDownloads.contains u = true →
    ((l.foldl
      (fun acc item =>
        ({ acc.1 with ignoredDownloads := listInsert item.url acc.1.ignoredDownloads },
         acc.2 ++ [Effect.openTab item.url]))
      acc).1.ignoredDownloads.contains u = true) := by
  induction l with
  | nil => intro acc h; exact h
  | cons a rest ih =>
    intro acc h
    exact ih _ (contains_listInsert_of_contains _ _ _ h)

theorem ignoreStart_mono (st : BgState) (items : List DownloadData) (u : String)
    (h : st.ignoredDownloads.contains u = true) :
    (ignoreDownloadsAndStartInBrowser st items).1.ignoredDownloads.contains u = true := by
  unfold ignoreDownloadsAndStartInBrowser
  exact ignoreStart_fold_mono _ _ _ h

theorem downloadFile_mono (st : BgState) (data : List DownloadData)
    (resp : DispatchResult) (u : String)
    (h : st.ignoredDownloads.contains u = true) :
    (downloadFile st data resp).1.ignoredDownloads.contains u = true := by
  cases resp with
  | success m => exact h
  | rejected m => exact ignoreStart_mono _ _ _ h
  | error => exact h

theorem handleDownload_mono (st : BgState) (item : DownloadItem) (suggest : Bool)
    (tab : Option String) (resp : DispatchResult) (u : String)
    (h : st.ignoredDownloads.contains u = true) :
    (handleDownload st item suggest tab resp).1.ignoredDownloads.contains u = true := by
  unfold handleDownload
  dsimp only
  repeat' split
  all_goals first
    | exact h
    | exact downloadFile_mono _ _ _ _ h

theorem stepBg_ignored_mono (st : BgState) (ev : BgEvent) (u : String)
    (h : st.ignoredDownloads.contains u = true) :
    (stepBg st ev).1.ignoredDownloads.contains u = true := by
  cases ev with
  | downloadCreated item tab resp => exact handleDownload_mono _ _ _ _ _ _ h
  | determiningFilename item tab resp => exact handleDownload_mono _ _ _ _ _ _ h
  | message msg sender resp =>
    cases hd : (handleMessages msg sender).2 with
    | some d =>
      simp only [stepBg, hd]
      exact downloadFile_mono _ _ _ _ h
    | none =>
      simp only [stepBg, hd]
      exact h
  | contextMenu urls tabUrl resp =>
    cases urls with
    | nil => exact h
    | cons a rest => exact downloadFile_mono _ _ _ _ h
  | capturedExpiry id => exact h
  | actionClicked saveOk => exact h
  | tabCreated now fetch saveOk => exact h

theorem handleDownload_ignored_passthrough (st : BgState) (item : DownloadItem)
    (suggest : Bool) (tab : Option String) (resp : DispatchResult) (u : String)
    (hu : st.ignoredDownloads.contains u = true)
    (heq : item.url = u ∨ item.finalUrl = some u) :
    handleDownload st item suggest tab resp = (st, []) := by
  have hig : isIgnoredItem st item = true := by
    unfold isIgnoredItem
    simp only [List.elem_eq_mem, decide_eq_true_eq] at hu
    rcases heq with heq | heq
    · rw [heq]
      simp [hu]
    · rw [heq]
      simp [hu]
  unfold handleDownload
  dsimp only
  rw [hig]
  simp

theorem countCancels_append (a b : List Effect) :
    countCancels (a ++ b) = countCancels a + countCancels b := by
  simp [countCancels, List.filter_append]

theorem countErases_append (a b : List Effect) :
    countErases (a ++ b) = countErases a + countErases b := by
  simp [countErases, List.filter_append]

theorem countDispatchCalls_append (a b : List Effect) :
    countDispatchCalls (a ++ b) = countDispatchCalls a + countDispatchCalls b := by
  simp [countDispatchCalls, List.filter_append]

theorem openTabUrls_append (a b : List Effect) :
    openTabUrls (a ++ b) = openTabUrls a ++ openTabUrls b := by
  simp [openTabUrls]

theorem ignoreStart_fold_effects (l : List DownloadData) :
    ∀ acc : BgState × List Effect,
    (l.foldl
      (fun acc item =>
        ({ acc.1 with ignoredDownloads := listInsert item.url acc.1.ignoredDownloads },
         acc.2 ++ [Effect.openTab item.url]))
      acc).2 = acc.2 ++ l.map (fun item => Effect.openTab item.url) := by
  induction l with
  | nil => intro acc; simp
  | cons a rest ih =>
    intro acc
    rw [List.foldl_cons, ih]
    simp

theorem handleDownload_capture_eq (st : BgState) (item : DownloadItem)
    (tab : Option String) (resp : DispatchResult)
    (he : AppSettings.isEnabled st.appSettings = true)
    (hi : isIgnoredItem st item = false)
    (hp : isUnsupportedProtocol (item.finalUrl.getD item.url) = false)
    (hx : AppSettings.isContainingFileType st.appSettings
      (getFileExtension st.appSettings item) = true)
    (hc : st.capturedDownloads.contains item.id = false) :
    handleDownload st item false tab resp =
      ((downloadFile { st with capturedDownloads := listInsert item.id st.capturedDownloads }
          [getDownloadData item tab] resp).1,
       [Effect.cancel item.id, Effect.erase item.id] ++
         (downloadFile { st with capturedDownloads := listInsert item.id st.capturedDownloads }
           [getDownloadData item tab] resp).2) := by
  have hmem : item.id ∉ st.capturedDownloads := by
    simpa [List.elem_eq_mem] using hc
  unfold handleDownload
  simp [he, hi, hp, hx, hmem]

theorem handleDownload_suggest_eq (st : BgState) (item : DownloadItem)
    (tab : Option String) (resp : DispatchResult)
    (he : AppSettings.isEnabled st.appSettings = true)
    (hi : isIgnoredItem st item = false)
    (hp : isUnsupportedProtocol (item.finalUrl.getD item.url) = false)
    (hx : AppSettings.isContainingFileType st.appSettings
      (getFileExtension st.appSettings item) = true) :
    handleDownload st item true tab resp =
      ({ st with capturedDownloads := listInsert item.id st.capturedDownloads },
       [Effect.suggestCall item.filename, Effect.cancel item.id, Effect.erase item.id]) := by
  unfold handleDownload
  simp [he, hi, hp, hx]

theorem handleDownload_captured_eq (st : BgState) (item : DownloadItem)
    (tab : Option String) (resp : DispatchResult)
    (he : AppSettings.isEnabled st.appSettings = true)
    (hi : isIgnoredItem st item = false)
    (hp : isUnsupportedProtocol (item.finalUrl.getD item.url) = false)
    (hx : AppSettings.isContainingFileType st.appSettings
      (getFileExtension st.appSettings item) = true)
    (hc : st.capturedDownloads.contains item.id = true) :
    handleDownload st item false tab resp = downloadFile st [getDownloadData item tab] resp := by
  have hmem : item.id ∈ st.capturedDownloads := by
    simpa [List.elem_eq_mem] using hc
  unfold handleDownload
  simp [he, hi, hp, hx, hmem]

theorem downloadFile_rejected_single (st : BgState) (d : DownloadData) (m : Option String)
    (hn : d.isBrowserNative = true) :
    downloadFile st [d] (.rejected m) =
      ({ st with ignoredDownloads := listInsert d.url st.ignoredDownloads },
       [Effect.dispatchCall [d], Effect.openTab d.url]) := by
  simp [downloadFile, ignoreDownloadsAndStartInBrowser, hn]

theorem downloadFile_counts (st : BgState) (data : List DownloadData) (resp : DispatchResult) :
    countDispatchCalls (downloadFile st data resp).2 = 1 ∧
    countCancels (downloadFile st data resp).2 = 0 ∧
    countErases (downloadFile st data resp).2 = 0 := by
  cases resp with
  | success m => simp [downloadFile, countDispatchCalls, countCancels, countErases]
  | error => simp [downloadFile, countDispatchCalls, countCancels, countErases]
  | rejected m =>
    unfold downloadFile ignoreDownloadsAndStartInBrowser
    dsimp only
    rw [ignoreStart_fold_effects]
    refine ⟨?_, ?_, ?_⟩ <;>
      · simp only [countDispatchCalls, countCancels, countErases, List.filter_cons,
          List.nil_append]
        induction (data.filter fun item => item.isBrowserNative) with
        | nil => simp
        | cons a rest ih => simp [ih]

theorem set_lastFetchTime (st : AppSettingsState) (k : String) (v : SettingsValue) (ok : Bool) :
    (AppSettings.set st k v ok).1.lastFetchTime = st.lastFetchTime := by
  unfold AppSettings.set
  cases settingsLookup st.settings k with
  | none => rfl
  | some cur =>
    dsimp only
    split
    · rfl
    · split <;> rfl

theorem settingsLookup_map_update (l : List (String × SettingsValue)) (key : String)
    (v cur : SettingsValue) (h : settingsLookup l key = some cur) :
    settingsLookup (l.map (fun p => if p.1 = key then (p.1, v) else p)) key = some v := by
  induction l with
  | nil => simp [settingsLookup] at h
  | cons p rest ih =>
    by_cases hp : p.1 = key
    · simp [settingsLookup, hp]
    · simp only [settingsLookup, hp, if_false, List.map_cons, if_neg hp] at h ⊢
      exact ih h

theorem jsLastIndexOfAux_neg (l : List Char) (c : Char) (h : c ∉ l) :
    jsLastIndexOfAux l c = -1 := by
  induction l with
  | nil => rfl
  | cons a rest ih =>
    have h1 : c ∉ rest := fun hc => h (List.mem_cons_of_mem _ hc)
    have h2 : a ≠ c := fun hc => h (hc ▸ List.mem_cons_self _ _)
    simp [jsLastIndexOfAux, ih h1, h2]

theorem jsSubstringFrom_nonpos (s : String) (i : Int) (h : i ≤ 0) :
    jsSubstringFrom s i = s := by
  unfold jsSubstringFrom
  rw [Int.toNat_of_nonpos h]
  rfl

theorem extCandidateOk_iff_not_cond (s : AppSettingsState) (c : String) :
    extCandidateOk s c ↔ ¬(c = "" ∨ AppSettings.isContainingFileType s c = false) := by
  unfold extCandidateOk
  constructor
  · rintro ⟨h1, h2⟩ (hc | hc)
    · exact h1 hc
    · rw [h2] at hc
      cases hc
  · intro h
    push_neg at h
    exact ⟨h.1, by
      cases hb : AppSettings.isContainingFileType s c with
      | false => exact absurd hb h.2
      | true => rfl⟩

-- ===========================================================================
-- Claim C1 - fallback on dispatch failure
-- ===========================================================================

/-- Claim C1, as stated, is false: when the dispatch POST fails with a
thrown transport error (connection refused / timeout, i.e.
TransportUnreachable), `downloadFile`'s catch block only logs - at the
concrete input below the handler opens no tab and leaves the ignore set
empty, although it did attempt the dispatch. -/
theorem downloadFile_unreachable_no_fallback_cex :
    openTabUrls (handleDownload sampleBg sampleItem false none .error).2 = [] ∧
    (handleDownload sampleBg sampleItem false none .error).1.ignoredDownloads = [] ∧
    countDispatchCalls (handleDownload sampleBg sampleItem false none .error).2 = 1 := by
  decide

/-- Claim C1 (amended): the ignore-and-reopen fallback fires when the
dispatch POST completes with an unsuccessful response
(TransportRejected), not on a thrown transport error.  In that case the
handler issues exactly one open-new-tab call with the download's URL,
records the URL in the ignore set, and every subsequent notification
whose `url` or `finalUrl` equals that URL passes through with no cancel,
no erase and no dispatch. -/
theorem dispatch_rejected_fallback
    (st : BgState) (item : DownloadItem) (tab : Option String) (m : Option String)
    (he : AppSettings.isEnabled st.appSettings = true)
    (hi : isIgnoredItem st item = false)
    (hp : isUnsupportedProtocol (item.finalUrl.getD item.url) = false)
    (hx : AppSettings.isContainingFileType st.appSettings
      (getFileExtension st.appSettings item) = true)
    (hc : st.capturedDownloads.contains item.id = false) :
    openTabUrls (handleDownload st item false tab (.rejected m)).2 =
      [item.finalUrl.getD item.url] ∧
    (handleDownload st item false tab (.rejected m)).1.ignoredDownloads.contains
      (item.finalUrl.getD item.url) = true ∧
    ∀ (item2 : DownloadItem) (sugg2 : Bool) (tab2 : Option String) (resp2 : DispatchResult),
      (item2.url = item.finalUrl.getD item.url ∨
        item2.finalUrl = some (item.finalUrl.getD item.url)) →
      handleDownload (handleDownload st item false tab (.rejected m)).1 item2 sugg2 tab2 resp2 =
        ((handleDownload st item false tab (.rejected m)).1, []) := by
  rw [handleDownload_capture_eq st item tab (.rejected m) he hi hp hx hc]
  rw [downloadFile_rejected_single _ (getDownloadData item tab) m rfl]
  refine ⟨?_, ?_, ?_⟩
  · rfl
  · exact contains_listInsert_self _ _
  · intro item2 sugg2 tab2 resp2 heq
    exact handleDownload_ignored_passthrough _ item2 sugg2 tab2 resp2 _
      (contains_listInsert_self _ _) heq

/-- Witness for `dispatch_rejected_fallback` at a concrete rejected
dispatch. -/
theorem dispatch_rejected_fallback_witness :
    openTabUrls (handleDownload sampleBg sampleItem false none (.rejected none)).2 =
      ["https://example.com/video.mp4"] :=
  (dispatch_rejected_fallback sampleBg sampleItem none none (by decide) (by decide)
    (by decide) (by decide) (by decide)).1

-- ===========================================================================
-- Claim C2 - atomicity of the capture guard
-- ===========================================================================

/-- Claim C2, as stated, is false: two awaited browser calls (`cancel`,
`erase`) stand between the membership check and the insert, so in the
interleaving where the second notification's check runs while the first
is suspended at its first `await`, both notifications for the same id
perform the cancel and the erase. -/
theorem capture_interleaving_double_cancel_cex :
    countCancels (capRun 5 interleavedSchedule (capInit [])).2 = 2 ∧
    countErases (capRun 5 interleavedSchedule (capInit [])).2 = 2 := by
  decide

/-- Claim C2 (amended): the check-then-insert step is NOT free of
asynchronous suspension (see the counterexample), so the at-most-once
guarantee only holds for notifications processed without interleaving:
when each handler runs to completion before the next starts, at most one
notification for an id performs the browser-side cancel/erase (exactly
one when the id was not yet captured, none when it was). -/
theorem capture_sequential_single_cancel (c0 : List Nat) (id : Nat) :
    countCancels (capRun id seqSchedule (capInit c0)).2 =
      (if c0.contains id then 0 else 1) ∧
    countErases (capRun id seqSchedule (capInit c0)).2 =
      (if c0.contains id then 0 else 1) := by
  by_cases h : c0.contains id = true
  · have hmem : id ∈ c0 := by simpa [List.elem_eq_mem] using h
    simp [capRun, capStep, capInit, seqSchedule, h, hmem, countCancels, countErases]
  · have hmm : c0.contains id = false := by
      cases hb : c0.contains id with
      | false => rfl
      | true => exact absurd hb h
    have hmem : id ∉ c0 := by simpa [List.elem_eq_mem] using hmm
    have h2m : id ∈ listInsert id c0 := by
      simpa [List.elem_eq_mem] using contains_listInsert_self id c0
    simp [capRun, capStep, capInit, seqSchedule, hmm, hmem, h2m, countCancels, countErases]

-- ===========================================================================
-- Claim C3 - file-extension resolution order
-- ===========================================================================

/-- Claim C3, as stated, is false: with filename `file.xyz` (unsupported
suffix), URL `https://x/a.mp4` and supported set `{.mp4}`, the strict
four-signal fallback chain of the claim yields `.mp4`, but
`getFileExtension` returns `.xyz` - a non-empty filename short-circuits
the URL signals entirely. -/
theorem getFileExtension_order_cex :
    getFileExtension sampleSettings itemXyz = ".xyz" ∧
    specResolveOrdered [".mp4"] "file.xyz" "https://x/a.mp4" "https://x/a.mp4" "" = ".mp4" ∧
    (".xyz" : String) ≠ ".mp4" := by
  decide

/-- Claim C3 (amended): the resolver tries the filename suffix when the
filename is non-empty and otherwise the final-URL then original-URL path
suffixes; a candidate that is empty or unsupported falls through to the
MIME subtype (emitted without a support check) - the URL signals are
never consulted when a filename is present.  The seven cases below
characterize `getFileExtension` completely. -/
theorem getFileExtension_chain_characterization (s : AppSettingsState) (item : DownloadItem) :
    (item.filename ≠ "" → extCandidateOk s (filenameExtCandidate item.filename) →
      getFileExtension s item = filenameExtCandidate item.filename) ∧
    (item.filename ≠ "" → ¬ extCandidateOk s (filenameExtCandidate item.filename) →
      (item.mime ≠ "" ∧ jsIncludesChar item.mime '/' = true) →
      getFileExtension s item = "." ++ jsToLower (mimeSubtype item.mime)) ∧
    (item.filename ≠ "" → ¬ extCandidateOk s (filenameExtCandidate item.filename) →
      ¬(item.mime ≠ "" ∧ jsIncludesChar item.mime '/' = true) →
      getFileExtension s item = filenameExtCandidate item.filename) ∧
    (item.filename = "" → extCandidateOk s (extractFileExtensionFromUrl (item.finalUrl.getD "")) →
      getFileExtension s item = extractFileExtensionFromUrl (item.finalUrl.getD "")) ∧
    (item.filename = "" → ¬ extCandidateOk s (extractFileExtensionFromUrl (item.finalUrl.getD "")) →
      extCandidateOk s (extractFileExtensionFromUrl item.url) →
      getFileExtension s item = extractFileExtensionFromUrl item.url) ∧
    (item.filename = "" → ¬ extCandidateOk s (extractFileExtensionFromUrl (item.finalUrl.getD "")) →
      ¬ extCandidateOk s (extractFileExtensionFromUrl item.url) →
      (item.mime ≠ "" ∧ jsIncludesChar item.mime '/' = true) →
      getFileExtension s item = "." ++ jsToLower (mimeSubtype item.mime)) ∧
    (item.filename = "" → ¬ extCandidateOk s (extractFileExtensionFromUrl (item.finalUrl.getD "")) →
      ¬ extCandidateOk s (extractFileExtensionFromUrl item.url) →
      ¬(item.mime ≠ "" ∧ jsIncludesChar item.mime '/' = true) →
      getFileExtension s item = extractFileExtensionFromUrl item.url) := by
  have hbad : ∀ c : String, ¬ extCandidateOk s c →
      (c = "" ∨ AppSettings.isContainingFileType s c = false) := by
    intro c hc
    by_contra hcon
    exact hc ((extCandidateOk_iff_not_cond s c).mpr hcon)
  have hok : ∀ c : String, extCandidateOk s c →
      ¬(c = "" ∨ AppSettings.isContainingFileType s c = false) := by
    intro c hc
    exact (extCandidateOk_iff_not_cond s c).mp hc
  refine ⟨?_, ?_, ?_, ?_, ?_, ?_, ?_⟩
  · intro hfn hc
    unfold getFileExtension
    dsimp only
    rw [if_pos hfn, if_neg (hok _ hc)]
  · intro hfn hc hm
    unfold getFileExtension
    dsimp only
    rw [if_pos hfn, if_pos (hbad _ hc), if_pos hm]
  · intro hfn hc hm
    unfold getFileExtension
    dsimp only
    rw [if_pos hfn, if_pos (hbad _ hc), if_neg hm]
  · intro hfn hc
    have hnot : ¬(item.filename ≠ "") := fun h => h hfn
    unfold getFileExtension
    dsimp only
    rw [if_neg hnot, if_neg (hok _ hc), if_neg (hok _ hc)]
  · intro hfn hc hu
    have hnot : ¬(item.filename ≠ "") := fun h => h hfn
    unfold getFileExtension
    dsimp only
    rw [if_neg hnot, if_pos (hbad _ hc), if_neg (hok _ hu)]
  · intro hfn hc hu hm
    have hnot : ¬(item.filename ≠ "") := fun h => h hfn
    unfold getFileExtension
    dsimp only
    rw [if_neg hnot, if_pos (hbad _ hc), if_pos (hbad _ hu), if_pos hm]
  · intro hfn hc hu hm
    have hnot : ¬(item.filename ≠ "") := fun h => h hfn
    unfold getFileExtension
    dsimp only
    rw [if_neg hnot, if_pos (hbad _ hc), if_pos (hbad _ hu), if_neg hm]

/-- Witness for `getFileExtension_chain_characterization`: a supported
filename suffix wins. -/
theorem getFileExtension_chain_witness :
    getFileExtension sampleSettings sampleItem = filenameExtCandidate sampleItem.filename :=
  (getFileExtension_chain_characterization sampleSettings sampleItem).1 (by decide) (by decide)

-- ===========================================================================
-- Claim C4 - one dispatch per download id
-- ===========================================================================

/-- Claim C4, as stated, is false: with a supported type and the extension
enabled, two creation notifications for the same id (both without a
suggest callback) each reach `downloadFile`, so two dispatch POSTs are
made - the captured-downloads guard only suppresses the second
cancel/erase, not the second dispatch. -/
theorem double_creation_double_dispatch_cex :
    countDispatchCalls ((handleDownload sampleBg sampleItem false none (.success none)).2 ++
      (handleDownload (handleDownload sampleBg sampleItem false none (.success none)).1
        sampleItem false none (.success none)).2) = 2 := by
  decide

/-- Claim C4 (amended): the exactly-one-dispatch guarantee holds for the
notification pair the hosts actually deliver for one download - a
filename-determination notification (which cancels, erases and captures
but never dispatches) followed by a creation notification (which skips
the cancel and dispatches once): across the pair there is exactly one
dispatch, one cancel and one erase.  Two creation notifications instead
produce two dispatches (see the counterexample). -/
theorem suggest_then_creation_single_dispatch
    (st : BgState) (item : DownloadItem) (tab1 tab2 : Option String)
    (resp1 resp2 : DispatchResult)
    (he : AppSettings.isEnabled st.appSettings = true)
    (hi : isIgnoredItem st item = false)
    (hp : isUnsupportedProtocol (item.finalUrl.getD item.url) = false)
    (hx : AppSettings.isContainingFileType st.appSettings
      (getFileExtension st.appSettings item) = true) :
    countDispatchCalls ((handleDownload st item true tab1 resp1).2 ++
      (handleDownload (handleDownload st item true tab1 resp1).1 item false tab2 resp2).2) = 1 ∧
    countCancels ((handleDownload st item true tab1 resp1).2 ++
      (handleDownload (handleDownload st item true tab1 resp1).1 item false tab2 resp2).2) = 1 ∧
    countErases ((handleDownload st item true tab1 resp1).2 ++
      (handleDownload (handleDownload st item true tab1 resp1).1 item false tab2 resp2).2) = 1 := by
  rw [handleDownload_suggest_eq st item tab1 resp1 he hi hp hx]
  dsimp only
  rw [handleDownload_captured_eq
    { st with capturedDownloads := listInsert item.id st.capturedDownloads }
    item tab2 resp2 he hi hp hx (contains_listInsert_self item.id st.capturedDownloads)]
  rw [countDispatchCalls_append, countCancels_append, countErases_append]
  have hd := downloadFile_counts
    { st with capturedDownloads := listInsert item.id st.capturedDownloads }
    [getDownloadData item tab2] resp2
  refine ⟨?_, ?_, ?_⟩
  · rw [hd.1]
    rfl
  · rw [hd.2.1]
    rfl
  · rw [hd.2.2]
    rfl

/-- Witness for `suggest_then_creation_single_dispatch` at a concrete
supported download. -/
theorem suggest_then_creation_single_dispatch_witness :
    countDispatchCalls ((handleDownload sampleBg sampleItem true none (.success none)).2 ++
      (handleDownload (handleDownload sampleBg sampleItem true none (.success none)).1
        sampleItem false none (.success none)).2) = 1 :=
  (suggest_then_creation_single_dispatch sampleBg sampleItem none none (.success none)
    (.success none) (by decide) (by decide) (by decide) (by decide)).1

-- ===========================================================================
-- Claim C5 - settings mutation order
-- ===========================================================================

/-- Claim C5, as stated, is false: `AppSettings.set` assigns the new value
to the in-memory settings object BEFORE awaiting persistence, so when
`chrome.storage.local.set` fails, the live accessor already returns the
new value (here `isEnabled` is `false` after a failed persist of
`enabled := false`) while storage still holds the prior value. -/
theorem appSettings_set_memory_first_cex :
    AppSettings.isEnabled (AppSettings.set sampleSettings "enabled" (.b false) false).1 = false ∧
    settingsLookup (AppSettings.set sampleSettings "enabled" (.b false) false).1.storage
      "enabled" = some (.b true) ∧
    (AppSettings.set sampleSettings "enabled" (.b false) false).2 = true := by
  decide

/-- Claim C5 (amended): a settings mutation updates the in-memory
settings first and persists afterwards; when persistence fails the
in-memory accessors return the NEW value, storage keeps the prior copy
and the error propagates to the caller; when persistence succeeds
memory and storage agree. -/
theorem appSettings_set_memory_first
    (st : AppSettingsState) (key : String) (v cur : SettingsValue)
    (hk : settingsLookup st.settings key = some cur) (hne : cur ≠ v) :
    settingsLookup (AppSettings.set st key v false).1.settings key = some v ∧
    (AppSettings.set st key v false).1.storage = st.storage ∧
    (AppSettings.set st key v false).2 = true ∧
    (AppSettings.set st key v true).1.storage = (AppSettings.set st key v true).1.settings := by
  unfold AppSettings.set
  rw [hk]
  dsimp only
  rw [if_neg hne, if_neg hne]
  exact ⟨settingsLookup_map_update _ _ _ _ hk, rfl, rfl, rfl⟩

/-- Witness for `appSettings_set_memory_first` at a concrete failed
persist of `enabled := false`. -/
theorem appSettings_set_memory_first_witness :
    settingsLookup (AppSettings.set sampleSettings "enabled" (.b false) false).1.settings
      "enabled" = some (.b false) :=
  (appSettings_set_memory_first sampleSettings "enabled" (.b false) (.b true) rfl
    (by decide)).1

-- ===========================================================================
-- Claim C6 - dotless names
-- ===========================================================================

/-- Claim C6, as stated, is false: a URL path segment or filename with no
`.` does not yield the empty extension for that step - JS
`substring(lastIndexOf(".")) = substring(-1)` clamps to `0` and returns
the WHOLE segment (`"abc"`, `"myfile"`), which is non-empty. -/
theorem extension_no_dot_cex :
    extractFileExtensionFromUrl "https://x/abc" = "abc" ∧
    filenameExtCandidate "myfile" = "myfile" ∧
    ("abc" : String) ≠ "" := by
  decide

/-- Claim C6 (amended): for a dotless URL path segment (without query) the
URL step returns the entire segment lower-cased and trimmed, and for a
dotless filename the filename step returns the entire filename
lower-cased and trimmed; the empty string arises only from an empty URL
(or empty segment / filename, for which the same equations yield `""`).
No case is an error: both functions are total. -/
theorem extension_no_dot_whole_segment
    (url fileName : String)
    (hfnd : jsIncludesChar fileName '.' = false)
    (hu : url ≠ "")
    (hnd : jsIncludesChar (jsSubstringFrom url (jsLastIndexOfChar url '/' + 1)) '.' = false)
    (hnq : jsIncludesChar (jsSubstringFrom url (jsLastIndexOfChar url '/' + 1)) '?' = false) :
    extractFileExtensionFromUrl url =
      jsTrim (jsToLower (jsSubstringFrom url (jsLastIndexOfChar url '/' + 1))) ∧
    filenameExtCandidate fileName = jsTrim (jsToLower fileName) ∧
    extractFileExtensionFromUrl "" = "" := by
  have hmemU : '.' ∉ (jsSubstringFrom url (jsLastIndexOfChar url '/' + 1)).data := by
    simpa [jsIncludesChar, List.elem_eq_mem] using hnd
  have hmemF : '.' ∉ fileName.data := by
    simpa [jsIncludesChar, List.elem_eq_mem] using hfnd
  refine ⟨?_, ?_, rfl⟩
  · unfold extractFileExtensionFromUrl
    rw [if_neg hu]
    dsimp only
    rw [hnq]
    simp only [Bool.false_eq_true, if_false]
    rw [show jsLastIndexOfChar (jsSubstringFrom url (jsLastIndexOfChar url '/' + 1)) '.' = -1
      from jsLastIndexOfAux_neg _ _ hmemU]
    rw [jsSubstringFrom_nonpos _ _ (by decide)]
  · unfold filenameExtCandidate
    rw [show jsLastIndexOfChar fileName '.' = -1 from jsLastIndexOfAux_neg _ _ hmemF]
    rw [jsSubstringFrom_nonpos _ _ (by decide)]

/-- Witness for `extension_no_dot_whole_segment` at a concrete dotless
URL. -/
theorem extension_no_dot_whole_segment_witness :
    extractFileExtensionFromUrl "https://x/abc" =
      jsTrim (jsToLower (jsSubstringFrom "https://x/abc"
        (jsLastIndexOfChar "https://x/abc" '/' + 1))) :=
  (extension_no_dot_whole_segment "https://x/abc" "myfile" (by decide) (by decide)
    (by decide) (by decide)).1

-- ===========================================================================
-- Claim C7 - rate-limited supported-type refresh
-- ===========================================================================

/-- Claim C7: `updateSupportedFileTypes` is rate-limited.  When the first
call is due (at least 5 minutes past `lastFetchTime`) it performs the
fetch, and a second call within 5 minutes of it (in particular within 1
second) performs no fetch and returns the cached state unchanged; in
general any call inside the window is a no-op; and a fetch that fails
(unsuccessful response or thrown transport error) leaves the previously
cached catalog untouched. -/
theorem updateSupportedFileTypes_rate_limited
    (st : AppSettingsState) (now1 now2 : Nat) (r1 r2 : FetchResult) (ok1 ok2 : Bool)
    (m : String)
    (hfirst : 5 * 60 * 1000 ≤ now1 - st.lastFetchTime)
    (hburst : now2 - now1 < 5 * 60 * 1000) :
    (AppSettings.updateSupportedFileTypes st now1 r1 ok1).2 = true ∧
    AppSettings.updateSupportedFileTypes
        (AppSettings.updateSupportedFileTypes st now1 r1 ok1).1 now2 r2 ok2 =
      ((AppSettings.updateSupportedFileTypes st now1 r1 ok1).1, false) ∧
    (∀ (st2 : AppSettingsState) (n : Nat) (f : FetchResult) (ok : Bool),
      n - st2.lastFetchTime < 5 * 60 * 1000 →
      AppSettings.updateSupportedFileTypes st2 n f ok = (st2, false)) ∧
    supportedTypesOf (AppSettings.updateSupportedFileTypes st now1 (.failure m) ok1).1 =
      supportedTypesOf st ∧
    supportedTypesOf (AppSettings.updateSupportedFileTypes st now1 .error ok1).1 =
      supportedTypesOf st := by
  have hguard : ¬(now1 - st.lastFetchTime < 5 * 60 * 1000) := Nat.not_lt.mpr hfirst
  have hlft : (AppSettings.updateSupportedFileTypes st now1 r1 ok1).1.lastFetchTime = now1 := by
    unfold AppSettings.updateSupportedFileTypes
    rw [if_neg hguard]
    cases r1 with
    | success data => exact set_lastFetchTime _ _ _ _
    | failure msg => rfl
    | error => rfl
  refine ⟨?_, ?_, ?_, ?_, ?_⟩
  · unfold AppSettings.updateSupportedFileTypes
    rw [if_neg hguard]
    cases r1 <;> rfl
  · conv_lhs => rw [AppSettings.updateSupportedFileTypes]
    rw [hlft, if_pos hburst]
  · intro st2 n f ok h
    unfold AppSettings.updateSupportedFileTypes
    rw [if_pos h]
  · unfold AppSettings.updateSupportedFileTypes
    rw [if_neg hguard]
    rfl
  · unfold AppSettings.updateSupportedFileTypes
    rw [if_neg hguard]
    rfl

/-- Witness for `updateSupportedFileTypes_rate_limited`: a due first call
performs the fetch. -/
theorem updateSupportedFileTypes_rate_limited_witness :
    (AppSettings.updateSupportedFileTypes sampleSettings 300000 (.success [".mkv"]) true).2 =
      true :=
  (updateSupportedFileTypes_rate_limited sampleSettings 300000 300500 (.success [".mkv"])
    (.failure "x") true true "x" (by decide) (by decide)).1

-- ===========================================================================
-- Claim C8 - disabled extension is a no-op
-- ===========================================================================

/-- Claim C8: when the extension is disabled, `handleDownload` returns
before touching anything - no cancel, no erase, no dispatch, no tab, and
both registry sets unchanged; the delayed cleanup its `finally` block
schedules is a no-op whenever the id was never captured. -/
theorem handleDownload_disabled_noop
    (st : BgState) (item : DownloadItem) (suggest : Bool) (tab : Option String)
    (resp : DispatchResult)
    (hdis : AppSettings.isEnabled st.appSettings = false) :
    handleDownload st item suggest tab resp = (st, []) ∧
    (st.capturedDownloads.contains item.id = false → capturedCleanup st item.id = st) := by
  constructor
  · unfold handleDownload
    simp [hdis]
  · intro hc
    unfold capturedCleanup
    rw [filter_ne_of_not_contains _ _ hc]

/-- Witness for `handleDownload_disabled_noop` at a concrete disabled
state. -/
theorem handleDownload_disabled_noop_witness :
    handleDownload disabledBg sampleItem false none (.success none) = (disabledBg, []) :=
  (handleDownload_disabled_noop disabledBg sampleItem false none (.success none)
    (by decide)).1

-- ===========================================================================
-- Claim C9 - structured message responses
-- ===========================================================================

/-- Claim C9: `handleMessages` always acknowledges with a structured
`{isSuccessful, message}` response - a `download_media` message with a
non-empty url is acknowledged successfully and yields a dispatch payload
with that url and `isBrowserNative = false`; a `download_media` message
with a missing or empty url is rejected with "Url is not provided" and
yields no dispatch; any other message type is rejected with "Invalid
message type" rather than silently dropped. -/
theorem handleMessages_structured_responses
    (sender : MessageSender) (u : String) (t : Option String) (u2 : Option String)
    (hu : u ≠ "") (ht : t ≠ some "download_media") :
    ((handleMessages { type := some "download_media", url := some u } sender).1 =
        { isSuccessful := true, message := "Message received" } ∧
      (∃ d, (handleMessages { type := some "download_media", url := some u } sender).2 = some d ∧
        d.url = u ∧ d.isBrowserNative = false)) ∧
    handleMessages { type := some "download_media", url := none } sender =
      ({ isSuccessful := false, message := "Url is not provided" }, none) ∧
    handleMessages { type := some "download_media", url := some "" } sender =
      ({ isSuccessful := false, message := "Url is not provided" }, none) ∧
    handleMessages { type := t, url := u2 } sender =
      ({ isSuccessful := false, message := "Invalid message type" }, none) := by
  refine ⟨⟨?_, ?_⟩, ?_, ?_, ?_⟩
  · simp [handleMessages, hu]
  · refine ⟨{ url := u,
              referer := match sender.tabUrl with | some tu => some tu | none => sender.url,
              pageAddress := match sender.tabUrl with | some tu => some tu | none => sender.url,
              description := none, isBrowserNative := false }, ?_, rfl, rfl⟩
    simp [handleMessages, hu]
  · simp [handleMessages]
  · simp [handleMessages]
  · cases t with
    | none => rfl
    | some tv =>
      have htv : tv ≠ "download_media" := by
        intro h
        exact ht (by rw [h])
      simp [handleMessages, htv]

/-- Witness for `handleMessages_structured_responses`: an unrecognized
type gets the structured rejection. -/
theorem handleMessages_structured_responses_witness :
    handleMessages { type := some "other", url := none } sampleSender =
      ({ isSuccessful := false, message := "Invalid message type" }, none) :=
  (handleMessages_structured_responses sampleSender "https://m/v.mp4" (some "other") none
    (by decide) (by decide)).2.2.2

-- ===========================================================================
-- Claim C10 - the ignore set never shrinks
-- ===========================================================================

/-- Claim C10: a URL in the ignore set stays there across every event the
background script processes for the life of the host process (no step of
`stepBg` removes it - there is no TTL or cleanup for `ignoredDownloads`),
and any download notification whose `url` or `finalUrl` equals an ignored
URL is passed through with no browser-side action, no state change and no
dispatch. -/
theorem ignored_urls_monotone_passthrough
    (st : BgState) (ev : BgEvent) (item : DownloadItem) (suggest : Bool)
    (tab : Option String) (resp : DispatchResult) (u : String)
    (hu : st.ignoredDownloads.contains u = true)
    (heq : item.url = u ∨ item.finalUrl = some u) :
    (stepBg st ev).1.ignoredDownloads.contains u = true ∧
    handleDownload st item suggest tab resp = (st, []) :=
  ⟨stepBg_ignored_mono st ev u hu,
   handleDownload_ignored_passthrough st item suggest tab resp u hu heq⟩

/-- Witness for `ignored_urls_monotone_passthrough` at a concrete ignored
URL. -/
theorem ignored_urls_monotone_passthrough_witness :
    handleDownload ignoredBg itemIgn false none (.success none) = (ignoredBg, []) :=
  (ignored_urls_monotone_passthrough ignoredBg (.capturedExpiry 0) itemIgn false none
    (.success none) "https://a/x.mp4" (by decide) (Or.inl rfl)).2
